import Mathlib

/-! Atmel SAM0 RTC system timer (`drivers/timer/sam0_rtc_timer.c`).

A shallow embedding of the driver's tick and timeout arithmetic.

* `u32_t` values are natural numbers, every operation reduced modulo `2^32`;
  `s32_t` values are integers.
* `CYCLES_PER_TICK` is a build-time constant and is a parameter `CPT` of every
  definition that uses it.  In the source it is a quotient of two `int`
  configuration constants, so its values lie in `1 .. 2^31 - 1`.
* The two build configurations (`CONFIG_TICKLESS_KERNEL` defined or not) are
  the namespaces `Tickless` and `Periodic`.
* Reads of hardware registers are inputs: `count` is the value returned by
  `rtc_count()` (the synchronised read of `RTC0->COUNT`), `status` is the
  value read from `RTC0->INTFLAG`.  The registers the driver programs as its
  output are state fields: `comp0` is `RTC0->COMP[0]`, `irq_pending` is the
  NVIC pending bit of `CONFIG_RTC_SAM0_IRQ`.  The handshake writes
  (`READREQ`, the write-back of `INTFLAG`, the `SYNCBUSY` polling of
  `rtc_sync`) do not influence any driver variable and are not represented.
* Calls of `z_clock_announce` are recorded, oldest first, in the field
  `announced`.
* Sequences of driver calls are folds of the functions over lists
  (`Tickless.run_isr`, `Periodic.run_isr`, `Periodic.run`).  The interleaving
  of a normal-context `z_clock_set_timeout` with the interrupt handler is the
  step function `Periodic.act` on configurations that carry the interrupt
  mask and the program point of the call.
-/

/-- Largest value of a `u32_t`. -/
def UINT32_MAX : Nat := 4294967295

/-- Conversion of a C integer to `u32_t`: reduction modulo `2^32`. -/
def toU32 (i : Int) : Nat := (i % 4294967296).toNat

/-- Conversion of a `u32_t` to `s32_t` (two's complement). -/
def toS32 (n : Nat) : Int :=
  if n % 4294967296 < 2147483648 then ((n % 4294967296 : Nat) : Int)
  else ((n % 4294967296 : Nat) : Int) - 4294967296

/-- Addition of two `u32_t`. -/
def u32add (a b : Nat) : Nat := (a + b) % 4294967296

/-- Subtraction of two `u32_t`, wrapping below zero. -/
def u32sub (a b : Nat) : Nat := (a + (4294967296 - b % 4294967296)) % 4294967296

/-- Multiplication of two `u32_t`. -/
def u32mul (a b : Nat) : Nat := (a * b) % 4294967296

/-- The macro `MAX_TICKS`, `(UINT32_MAX / CYCLES_PER_TICK - 2)`, an unsigned
expression. -/
def MAX_TICKS (CPT : Nat) : Nat := u32sub (UINT32_MAX / CPT) 2

/-- The macro `TICK_THRESHOLD`. -/
def TICK_THRESHOLD : Nat := 7

namespace Tickless

/-- Driver state when `CONFIG_TICKLESS_KERNEL` is defined. -/
structure State where
  /-- Counter value at the last `z_clock_announce` call. -/
  rtc_last : Nat
  /-- The comparator register `RTC0->COMP[0]`. -/
  comp0 : Nat
  /-- NVIC pending bit of the RTC interrupt. -/
  irq_pending : Bool
  /-- Arguments of the `z_clock_announce` calls made so far, oldest first. -/
  announced : List Nat
  deriving DecidableEq, Repr

/-- Lines 162-165 of `z_clock_set_timeout`: negative and too large values
become `MAX_TICKS` (stored back into the `s32_t` variable). -/
def clamp_ticks (CPT : Nat) (ticks : Int) : Int :=
  if ticks < 0 ∨ toU32 ticks > MAX_TICKS CPT then toS32 (MAX_TICKS CPT) else ticks

/-- Lines 169-170 of `z_clock_set_timeout`: the first value of `timeout`,
for the clamped `ticks`.  The product `ticks * CYCLES_PER_TICK` of two `int`
operands enters the unsigned sum reduced modulo `2^32`. -/
def timeout_cycles (CPT : Nat) (count : Nat) (ticks : Int) (s : State) : Nat :=
  u32add (toU32 (ticks * (CPT : Int))) (u32sub count s.rtc_last % CPT)

/-- Lines 173-174 of `z_clock_set_timeout`: the second value of `timeout`. -/
def round_up (CPT : Nat) (timeout : Nat) : Nat :=
  u32mul (u32sub (u32add timeout CPT) 1 / CPT) CPT

/-- The value of `timeout` tested against `TICK_THRESHOLD` on line 176, for
the argument `ticks` as passed by the caller. -/
def rounded_timeout (CPT : Nat) (count : Nat) (ticks : Int) (s : State) : Nat :=
  round_up CPT (timeout_cycles CPT count (clamp_ticks CPT ticks) s)

/-- The tickless `z_clock_set_timeout`; `count` is what `rtc_count()` returns. -/
def z_clock_set_timeout (CPT : Nat) (count : Nat) (ticks : Int) (idle : Bool)
    (s : State) : State :=
  let _ := idle
  let ticks := clamp_ticks CPT ticks
  let timeout := timeout_cycles CPT count ticks s
  let timeout := round_up CPT timeout
  if timeout < TICK_THRESHOLD then
    { s with irq_pending := true }
  else
    { s with comp0 := u32add count timeout }

/-- The tickless `z_clock_elapsed`: the returned value and the state after. -/
def z_clock_elapsed (CPT : Nat) (count : Nat) (s : State) : Nat × State :=
  (u32sub count s.rtc_last / CPT, s)

/-- The hook `z_clock_idle_exit`. -/
def z_clock_idle_exit (s : State) : State := s

/-- The tickless `rtc_isr`; `status` is the value read from `INTFLAG` and
`count` is what `rtc_count()` returns. -/
def rtc_isr (CPT : Nat) (status : Nat) (count : Nat) (s : State) : State :=
  let _ := status
  if count ≠ s.rtc_last then
    { s with
      announced := s.announced ++ [u32sub count s.rtc_last / CPT]
      rtc_last := count }
  else
    s

/-- The driver variables assigned by the tickless `z_clock_driver_init`; the
function returns `0`. -/
def z_clock_driver_init (s : State) : Int × State :=
  (0, { s with rtc_last := 0, irq_pending := false })

/-- A run of the tickless interrupt handler, once for each pair of a status
word and a counter reading of the list, with no other driver call in between. -/
def run_isr (CPT : Nat) (reads : List (Nat × Nat)) (s : State) : State :=
  reads.foldl (fun st r => rtc_isr CPT r.1 r.2 st) s

end Tickless

namespace Periodic

/-- Driver state when `CONFIG_TICKLESS_KERNEL` is not defined. -/
structure State where
  /-- Tick count at the last `z_clock_announce` call. -/
  rtc_last : Nat
  /-- Current tick count. -/
  rtc_counter : Nat
  /-- Tick value of the next timeout. -/
  rtc_timeout : Nat
  /-- The comparator register `RTC0->COMP[0]`. -/
  comp0 : Nat
  /-- NVIC pending bit of the RTC interrupt. -/
  irq_pending : Bool
  /-- Arguments of the `z_clock_announce` calls made so far, oldest first. -/
  announced : List Nat
  deriving DecidableEq, Repr

/-- The periodic `z_clock_set_timeout`.  The pair `irq_lock`/`irq_unlock`
around the last assignment restores the interrupt mask it found. -/
def z_clock_set_timeout (ticks : Int) (idle : Bool) (s : State) : State :=
  let _ := idle
  if ticks < 0 then
    { s with rtc_timeout := s.rtc_counter }
  else if ticks = 0 then
    { s with irq_pending := true }
  else
    { s with rtc_timeout := u32add s.rtc_counter (toU32 ticks) }

/-- The periodic `z_clock_elapsed`: the returned value and the state after. -/
def z_clock_elapsed (s : State) : Nat × State :=
  (u32sub s.rtc_counter s.rtc_last, s)

/-- The hook `z_clock_idle_exit`. -/
def z_clock_idle_exit (s : State) : State := s

/-- The periodic `rtc_isr`; `status` is the value read from `INTFLAG`. -/
def rtc_isr (status : Nat) (s : State) : State :=
  if status ≠ 0 then
    let s1 := { s with rtc_counter := u32add s.rtc_counter 1 }
    if s1.rtc_counter = s1.rtc_timeout then
      let s2 := { s1 with announced := s1.announced ++ [u32sub s1.rtc_counter s1.rtc_last] }
      { s2 with rtc_last := s2.rtc_counter }
    else
      s1
  else
    { s with announced := s.announced ++ [0] }

/-- A run of the interrupt handler, once for each status word of the list,
with no other driver call in between. -/
def run_isr (statuses : List Nat) (s : State) : State :=
  statuses.foldl (fun st status => rtc_isr status st) s

/-- The driver variables and registers assigned by the periodic
`z_clock_driver_init`; the function returns `0`. -/
def z_clock_driver_init (CPT : Nat) (s : State) : Int × State :=
  (0, { s with rtc_last := 0, irq_pending := false, comp0 := CPT % 4294967296,
               rtc_counter := 0, rtc_timeout := 0 })

/-- The calls the kernel and the hardware make into the periodic driver. -/
inductive Event where
  /-- A call `z_clock_set_timeout(ticks, idle)`. -/
  | set_timeout (ticks : Int) (idle : Bool)
  /-- A call `z_clock_elapsed()`. -/
  | elapsed
  /-- A call `z_clock_idle_exit()`. -/
  | idle_exit
  /-- A run of `rtc_isr` that reads `status` from `INTFLAG`: a genuine tick
  when `status` is not zero, a forced interrupt when it is zero. -/
  | isr (status : Nat)
  deriving DecidableEq, Repr

/-- The state after one call. -/
def step (e : Event) (s : State) : State :=
  match e with
  | .set_timeout ticks idle => z_clock_set_timeout ticks idle s
  | .elapsed => (z_clock_elapsed s).2
  | .idle_exit => z_clock_idle_exit s
  | .isr status => rtc_isr status s

/-- The state after a sequence of calls, leftmost first. -/
def run (es : List Event) (s : State) : State :=
  es.foldl (fun st e => step e st) s

/-- Whether a call is a genuine tick interrupt: a run of the handler that
finds status flags set. -/
def is_genuine_tick (e : Event) : Bool :=
  match e with
  | .isr status => status != 0
  | _ => false

/-- Number of genuine tick interrupts in a sequence of calls. -/
def genuine_ticks (es : List Event) : Nat :=
  es.countP is_genuine_tick

/-- Program points of a normal-context call `z_clock_set_timeout(ticks)` with
`ticks > 0`, lines 204-207. -/
inductive Pc where
  /-- Before `irq_lock()`. -/
  | at_lock
  /-- After `irq_lock()`, before `rtc_counter` is read. -/
  | at_read
  /-- The value `tmp` of `rtc_counter` has been read, `rtc_timeout` is not yet
  written. -/
  | at_store (tmp : Nat)
  /-- After the assignment to `rtc_timeout`, before `irq_unlock(key)`. -/
  | at_unlock
  /-- After `irq_unlock(key)`. -/
  | done
  deriving DecidableEq, Repr

/-- A configuration of the interleaved system: the driver state, the
interrupt mask, the `key` saved by `irq_lock`, and the program point of the
normal-context call. -/
structure Config where
  /-- The driver state. -/
  st : State
  /-- Whether interrupts are masked. -/
  irq_locked : Bool
  /-- The local variable `key`. -/
  key : Bool
  /-- Program point of the normal-context call. -/
  pc : Pc
  deriving DecidableEq, Repr

/-- Modelled from the spec: the kernel primitive `irq_lock()`, which is not
defined in this file.  It opens the critical section ("interrupts masked") and
returns the mask it found, which the caller keeps in `key`. -/
def irq_lock (c : Config) : Config :=
  { c with key := c.irq_locked, irq_locked := true }

/-- Modelled from the spec: the kernel primitive `irq_unlock(key)`, which is
not defined in this file.  It closes the critical section by restoring the
mask saved in `key`. -/
def irq_unlock (c : Config) : Config :=
  { c with irq_locked := c.key }

/-- One step of the normal-context call `z_clock_set_timeout(ticks)`,
`ticks > 0`: `irq_lock`, the read of `rtc_counter`, the write of
`rtc_timeout`, `irq_unlock`. -/
def thread_step (ticks : Int) (c : Config) : Config :=
  match c.pc with
  | .at_lock => { irq_lock c with pc := .at_read }
  | .at_read => { c with pc := .at_store c.st.rtc_counter }
  | .at_store tmp =>
    { c with st := { c.st with rtc_timeout := u32add tmp (toU32 ticks) }, pc := .at_unlock }
  | .at_unlock => { irq_unlock c with pc := .done }
  | .done => c

/-- What happens next in an interleaving: a step of the normal-context call,
or a run of the interrupt handler with the given status word. -/
inductive Action where
  /-- The normal-context call advances by one step. -/
  | thread
  /-- The interrupt handler runs to completion. -/
  | irq (status : Nat)
  deriving DecidableEq, Repr

/-- One action of an interleaving; the handler cannot run while interrupts
are masked. -/
def act (ticks : Int) (a : Action) (c : Config) : Option Config :=
  match a with
  | .thread => some (thread_step ticks c)
  | .irq status => if c.irq_locked then none else some { c with st := rtc_isr status c.st }

/-- An interleaving, leftmost action first; `none` when it asks the handler
to run while interrupts are masked. -/
def exec (ticks : Int) (acts : List Action) (c : Config) : Option Config :=
  match acts with
  | [] => some c
  | a :: rest =>
    match act ticks a c with
    | none => none
    | some c1 => exec ticks rest c1

end Periodic

/-! ## Arithmetic of `u32_t` -/

theorem toU32_natCast (n : Nat) : toU32 (n : Int) = n % 4294967296 := by
  unfold toU32
  omega

theorem toU32_natCast_mul (n c : Nat) : toU32 ((n : Int) * (c : Int)) = n * c % 4294967296 := by
  rw [← toU32_natCast (n * c)]
  push_cast
  rfl

theorem u32sub_lt (a b : Nat) : u32sub a b < 4294967296 := by
  unfold u32sub
  omega

theorem u32sub_self (a : Nat) : u32sub a a = 0 := by
  unfold u32sub
  omega

theorem u32sub_add_cancel (a b r : Nat) (h : u32sub a b + r < 4294967296) :
    u32sub (u32add a r) b = u32sub a b + r := by
  unfold u32sub u32add at *
  omega

/-- For a `CYCLES_PER_TICK` in the range of a positive `int`, the subtraction
in `MAX_TICKS` does not wrap. -/
theorem MAX_TICKS_eq (CPT : Nat) (h1 : 1 ≤ CPT) (h2 : CPT < 2147483648) :
    2 ≤ 4294967295 / CPT ∧ MAX_TICKS CPT = 4294967295 / CPT - 2 := by
  have h3 : 2 ≤ 4294967295 / CPT := by
    rw [Nat.le_div_iff_mul_le (by omega)]
    omega
  have h4 : 4294967295 / CPT ≤ 4294967295 := Nat.div_le_self _ _
  refine ⟨h3, ?_⟩
  unfold MAX_TICKS UINT32_MAX u32sub
  omega

/-- Two more ticks than `MAX_TICKS` still fit into a `u32_t` cycle count. -/
theorem MAX_TICKS_mul_le (CPT n : Nat) (h1 : 1 ≤ CPT) (h2 : CPT < 2147483648)
    (hn : n ≤ MAX_TICKS CPT) : (n + 2) * CPT ≤ 4294967295 := by
  obtain ⟨h3, h4⟩ := MAX_TICKS_eq CPT h1 h2
  have h5 : n + 2 ≤ 4294967295 / CPT := by omega
  calc (n + 2) * CPT ≤ 4294967295 / CPT * CPT := Nat.mul_le_mul_right _ h5
    _ ≤ 4294967295 := Nat.div_mul_le_self _ _

/-- Rounding `n * CPT + p` with `p < CPT` up to a multiple of `CPT`. -/
theorem ceil_mul_add (CPT n p : Nat) (hp : p < CPT) :
    (n * CPT + p + CPT - 1) / CPT * CPT = if p = 0 then n * CPT else (n + 1) * CPT := by
  have hc : 0 < CPT := by omega
  have e : n * CPT + p + CPT - 1 = (p + CPT - 1) + CPT * n := by
    rw [Nat.mul_comm CPT n]
    omega
  rw [e, Nat.add_mul_div_left _ _ hc]
  by_cases h0 : p = 0
  · have : (p + CPT - 1) / CPT = 0 := Nat.div_eq_of_lt (by omega)
    rw [this, if_pos h0]
    simp
  · have : (p + CPT - 1) / CPT = 1 := by
      have e2 : p + CPT - 1 = (p - 1) + CPT := by omega
      rw [e2, Nat.add_div_right _ hc, Nat.div_eq_of_lt (by omega)]
    rw [this, if_neg h0, Nat.add_comm]

namespace Tickless

/-- When the exact value `T + CPT - 1` fits into a `u32_t`, the round-up of
lines 173-174 is the exact one. -/
theorem round_up_exact (CPT T : Nat) (h1 : 1 ≤ CPT) (h : T + CPT - 1 < 4294967296) :
    round_up CPT T = (T + CPT - 1) / CPT * CPT := by
  have h2 : (T + CPT - 1) / CPT * CPT ≤ T + CPT - 1 := Nat.div_mul_le_self _ _
  have h3 : u32sub (u32add T CPT) 1 = T + CPT - 1 := by
    unfold u32sub u32add
    omega
  unfold round_up u32mul
  rw [h3]
  omega

/-- Values in `0 .. MAX_TICKS` pass the clamp unchanged. -/
theorem clamp_ticks_of_le (CPT n : Nat) (h1 : 1 ≤ CPT) (h2 : CPT < 2147483648)
    (hn : n ≤ MAX_TICKS CPT) : clamp_ticks CPT (n : Int) = (n : Int) := by
  obtain ⟨h3, h4⟩ := MAX_TICKS_eq CPT h1 h2
  have h5 : 4294967295 / CPT ≤ 4294967295 := Nat.div_le_self _ _
  unfold clamp_ticks
  rw [toU32_natCast]
  rw [if_neg]
  omega

/-- The unrounded timeout of an in-range request, without wrap-around. -/
theorem timeout_cycles_exact (CPT n count : Nat) (s : State) (h1 : 1 ≤ CPT)
    (h2 : CPT < 2147483648) (hn : n ≤ MAX_TICKS CPT) :
    timeout_cycles CPT count (n : Int) s = n * CPT + u32sub count s.rtc_last % CPT ∧
    n * CPT + u32sub count s.rtc_last % CPT + CPT - 1 ≤ 4294967295 := by
  have h3 := MAX_TICKS_mul_le CPT n h1 h2 hn
  have h4 : u32sub count s.rtc_last % CPT < CPT := Nat.mod_lt _ (by omega)
  have h5 : (n + 2) * CPT = n * CPT + 2 * CPT := by ring
  unfold timeout_cycles u32add
  rw [toU32_natCast_mul]
  omega

/-- The rounded timeout of an in-range request: the request itself when the
counter stands a whole number of ticks after the mark, one tick more otherwise. -/
theorem rounded_timeout_in_range (CPT n count : Nat) (s : State) (h1 : 1 ≤ CPT)
    (h2 : CPT < 2147483648) (hn : n ≤ MAX_TICKS CPT) :
    rounded_timeout CPT count (n : Int) s =
      if u32sub count s.rtc_last % CPT = 0 then n * CPT else (n + 1) * CPT := by
  obtain ⟨h3, h4⟩ := timeout_cycles_exact CPT n count s h1 h2 hn
  have h5 : u32sub count s.rtc_last % CPT < CPT := Nat.mod_lt _ (by omega)
  unfold rounded_timeout
  rw [clamp_ticks_of_le CPT n h1 h2 hn, h3, round_up_exact CPT _ h1 (by omega)]
  exact ceil_mul_add CPT n _ h5

end Tickless

namespace Tickless

/-- The two outcomes of the tickless `z_clock_set_timeout`, by the rounded
timeout. -/
theorem z_clock_set_timeout_eq (CPT count : Nat) (ticks : Int) (idle : Bool) (s : State) :
    z_clock_set_timeout CPT count ticks idle s =
      if rounded_timeout CPT count ticks s < TICK_THRESHOLD then
        { s with irq_pending := true }
      else
        { s with comp0 := u32add count (rounded_timeout CPT count ticks s) } := rfl

/-- C1. Tickless mode, end to end: an in-range request whose rounded distance
`R` is at least the threshold, with `d + R` below `2^32` for the distance `d`
of the counter from the mark, programs the comparator with `count + R` without
announcing anything; the handler run with the counter at the comparator then
makes exactly one `z_clock_announce` call, with `d / CPT + ticks` when `d` is a
multiple of `CPT` and `d / CPT + ticks + 1` otherwise (never less than
`ticks`), and leaves `rtc_last` equal to the comparator. -/
theorem tickless_set_timeout_then_isr (CPT count status : Nat) (ticks : Int)
    (idle : Bool) (s : State)
    (hc1 : 1 ≤ CPT) (hc2 : CPT < 2147483648)
    (ht0 : 0 ≤ ticks) (ht1 : ticks ≤ (MAX_TICKS CPT : Int))
    (hR : 7 ≤ rounded_timeout CPT count ticks s)
    (hd : u32sub count s.rtc_last + rounded_timeout CPT count ticks s < 4294967296) :
    (z_clock_set_timeout CPT count ticks idle s).comp0
        = u32add count (rounded_timeout CPT count ticks s) ∧
    (z_clock_set_timeout CPT count ticks idle s).announced = s.announced ∧
    (rtc_isr CPT status (z_clock_set_timeout CPT count ticks idle s).comp0
        (z_clock_set_timeout CPT count ticks idle s)).announced
      = s.announced ++ [u32sub count s.rtc_last / CPT + ticks.toNat
          + (if u32sub count s.rtc_last % CPT = 0 then 0 else 1)] ∧
    ticks.toNat ≤ u32sub count s.rtc_last / CPT + ticks.toNat
          + (if u32sub count s.rtc_last % CPT = 0 then 0 else 1) ∧
    (rtc_isr CPT status (z_clock_set_timeout CPT count ticks idle s).comp0
        (z_clock_set_timeout CPT count ticks idle s)).rtc_last
      = (z_clock_set_timeout CPT count ticks idle s).comp0 := by
  lift ticks to ℕ using ht0 with n
  have hn : n ≤ MAX_TICKS CPT := by exact_mod_cast ht1
  have hRv := rounded_timeout_in_range CPT n count s hc1 hc2 hn
  have hpos : 0 < CPT := by omega
  have hs1 : z_clock_set_timeout CPT count (n : Int) idle s
      = { s with comp0 := u32add count (rounded_timeout CPT count (n : Int) s) } := by
    rw [z_clock_set_timeout_eq, if_neg]
    unfold TICK_THRESHOLD
    omega
  have hsub := u32sub_add_cancel count s.rtc_last _ hd
  have hne : u32add count (rounded_timeout CPT count (n : Int) s) ≠ s.rtc_last := by
    intro heq
    rw [heq, u32sub_self] at hsub
    omega
  have hdiv : (u32sub count s.rtc_last + rounded_timeout CPT count (n : Int) s) / CPT
      = u32sub count s.rtc_last / CPT + n
          + (if u32sub count s.rtc_last % CPT = 0 then 0 else 1) := by
    rw [hRv]
    by_cases h0 : u32sub count s.rtc_last % CPT = 0
    · rw [if_pos h0, if_pos h0, Nat.add_mul_div_right _ _ hpos]
      rfl
    · rw [if_neg h0, if_neg h0, Nat.add_mul_div_right _ _ hpos]
      omega
  rw [hs1]
  refine ⟨rfl, rfl, ?_, ?_, ?_⟩
  · simp only [rtc_isr, if_pos hne, hsub, hdiv, Int.toNat_natCast]
  · rw [Int.toNat_natCast]
    exact Nat.le_trans (Nat.le_add_left _ _) (Nat.le_add_right _ _)
  · simp only [rtc_isr, if_pos hne]

/-- Scenario A of the specification: `CYCLES_PER_TICK = 10`, counter and mark
at `0`, five ticks requested: comparator `50`, one `z_clock_announce(5)`,
mark `50`. -/
theorem tickless_set_timeout_then_isr_witness :
    (7 ≤ rounded_timeout 10 0 5 ⟨0, 0, false, []⟩ ∧
      u32sub 0 0 + rounded_timeout 10 0 5 ⟨0, 0, false, []⟩ < 4294967296) ∧
    (z_clock_set_timeout 10 0 5 false ⟨0, 0, false, []⟩).comp0 = 50 ∧
    (rtc_isr 10 1 50 (z_clock_set_timeout 10 0 5 false ⟨0, 0, false, []⟩)).announced = [5] ∧
    (rtc_isr 10 1 50 (z_clock_set_timeout 10 0 5 false ⟨0, 0, false, []⟩)).rtc_last = 50 := by
  have h := tickless_set_timeout_then_isr 10 0 1 5 false ⟨0, 0, false, []⟩
    (by decide) (by decide) (by decide) (by decide) (by decide) (by decide)
  have hc : (z_clock_set_timeout 10 0 5 false ⟨0, 0, false, []⟩).comp0 = 50 := by decide
  rw [hc] at h
  exact ⟨⟨by decide, by decide⟩, hc, h.2.2.1, h.2.2.2.2⟩

end Tickless

namespace Periodic

theorem run_isr_nil (s : State) : run_isr [] s = s := rfl

theorem run_isr_cons (a : Nat) (l : List Nat) (s : State) :
    run_isr (a :: l) s = run_isr l (rtc_isr a s) := rfl

theorem run_isr_append (l1 l2 : List Nat) (s : State) :
    run_isr (l1 ++ l2) s = run_isr l2 (run_isr l1 s) := by
  unfold run_isr
  rw [List.foldl_append]

/-- A genuine tick that does not reach the target only advances the counter. -/
theorem rtc_isr_tick_no_match (status : Nat) (s : State) (hst : status ≠ 0)
    (hT : (s.rtc_counter + 1) % 4294967296 ≠ s.rtc_timeout) :
    rtc_isr status s = { s with rtc_counter := (s.rtc_counter + 1) % 4294967296 } := by
  simp only [rtc_isr, u32add, hst, ne_eq, not_false_eq_true, if_true, hT, if_false]

/-- A genuine tick that reaches the target announces the distance from the
mark and moves the mark. -/
theorem rtc_isr_tick_match (status : Nat) (s : State) (hst : status ≠ 0)
    (hT : (s.rtc_counter + 1) % 4294967296 = s.rtc_timeout) :
    rtc_isr status s =
      { s with rtc_counter := (s.rtc_counter + 1) % 4294967296
               announced := s.announced
                  ++ [u32sub ((s.rtc_counter + 1) % 4294967296) s.rtc_last]
               rtc_last := (s.rtc_counter + 1) % 4294967296 } := by
  simp only [rtc_isr, u32add, hst, ne_eq, not_false_eq_true, if_true, hT]

/-- A run of genuine ticks none of which reaches the target only advances the
counter. -/
theorem run_isr_no_match (l : List Nat) (s : State) (hc : s.rtc_counter < 4294967296)
    (hst : ∀ st ∈ l, st ≠ 0)
    (hT : ∀ k, 1 ≤ k → k ≤ l.length → (s.rtc_counter + k) % 4294967296 ≠ s.rtc_timeout) :
    run_isr l s = { s with rtc_counter := (s.rtc_counter + l.length) % 4294967296 } := by
  induction l generalizing s with
  | nil =>
    rw [run_isr_nil]
    simp only [List.length_nil, Nat.add_zero, Nat.mod_eq_of_lt hc]
  | cons a l ih =>
    have ha : a ≠ 0 := hst a (List.mem_cons_self a l)
    have h1 : (s.rtc_counter + 1) % 4294967296 ≠ s.rtc_timeout :=
      hT 1 (Nat.le_refl 1) (by simp)
    rw [run_isr_cons, rtc_isr_tick_no_match a s ha h1, ih]
    · simp only [List.length_cons]
      congr 1
      omega
    · exact Nat.mod_lt _ (by decide)
    · intro st hmem
      exact hst st (List.mem_cons_of_mem a hmem)
    · intro k hk1 hk2
      have h2 := hT (k + 1) (by omega) (by simp only [List.length_cons]; omega)
      intro heq
      apply h2
      rw [← heq]
      show (s.rtc_counter + (k + 1)) % 4294967296
        = ((s.rtc_counter + 1) % 4294967296 + k) % 4294967296
      omega

end Periodic

namespace Periodic

/-- The periodic `z_clock_set_timeout` for a positive argument. -/
theorem z_clock_set_timeout_pos (n : Nat) (idle : Bool) (s : State) (h1 : 1 ≤ n)
    (h2 : n < 4294967296) :
    z_clock_set_timeout (n : Int) idle s
      = { s with rtc_timeout := (s.rtc_counter + n) % 4294967296 } := by
  have h3 : ¬ ((n : Int) < 0) := by omega
  have h4 : ¬ ((n : Int) = 0) := by omega
  simp only [z_clock_set_timeout, h3, h4, if_false, u32add, toU32_natCast,
    Nat.mod_eq_of_lt h2]

/-- C2. Periodic mode, end to end: a request of `ticks` in `1 .. 2^31 - 1`
sets `rtc_timeout` to `(c + ticks) mod 2^32` and announces nothing; a
following run of genuine tick interrupts announces nothing while the run is
shorter than `ticks`, and a run of exactly `ticks` interrupts has made exactly
one `z_clock_announce` call, with `(c + ticks - m) mod 2^32` (which is `ticks`
when `m = c`), and leaves `rtc_last = rtc_counter = (c + ticks) mod 2^32`. -/
theorem periodic_set_timeout_then_ticks (ticks : Int) (idle : Bool) (s : State)
    (statuses : List Nat)
    (ht1 : 1 ≤ ticks) (ht2 : ticks ≤ 2147483647)
    (hc : s.rtc_counter < 4294967296)
    (hst : ∀ st ∈ statuses, st ≠ 0) :
    (z_clock_set_timeout ticks idle s).rtc_timeout
        = (s.rtc_counter + ticks.toNat) % 4294967296 ∧
    (z_clock_set_timeout ticks idle s).announced = s.announced ∧
    ((statuses.length : Int) < ticks →
      (run_isr statuses (z_clock_set_timeout ticks idle s)).announced = s.announced) ∧
    ((statuses.length : Int) = ticks →
      (run_isr statuses (z_clock_set_timeout ticks idle s)).announced
          = s.announced ++ [toU32 ((s.rtc_counter : Int) + ticks - (s.rtc_last : Int))] ∧
      (run_isr statuses (z_clock_set_timeout ticks idle s)).rtc_last
          = (s.rtc_counter + ticks.toNat) % 4294967296 ∧
      (run_isr statuses (z_clock_set_timeout ticks idle s)).rtc_counter
          = (s.rtc_counter + ticks.toNat) % 4294967296) ∧
    (s.rtc_last = s.rtc_counter →
      toU32 ((s.rtc_counter : Int) + ticks - (s.rtc_last : Int)) = ticks.toNat) := by
  lift ticks to ℕ using (by omega) with n
  have hn1 : 1 ≤ n := by omega
  have hn2 : n < 4294967296 := by omega
  rw [z_clock_set_timeout_pos n idle s hn1 hn2, Int.toNat_natCast]
  refine ⟨rfl, rfl, ?_, ?_, ?_⟩
  · intro hlen
    have hlen2 : statuses.length < n := by omega
    rw [run_isr_no_match statuses
      { s with rtc_timeout := (s.rtc_counter + n) % 4294967296 } hc hst]
    intro k hk1 hk2
    show (s.rtc_counter + k) % 4294967296 ≠ (s.rtc_counter + n) % 4294967296
    omega
  · intro hlen
    have hlen2 : statuses.length = n := by omega
    have hne : statuses ≠ [] := by
      intro h
      rw [h] at hlen2
      simp at hlen2
      omega
    have hsplit := List.dropLast_append_getLast hne
    have hdl : statuses.dropLast.length = n - 1 := by
      rw [List.length_dropLast, hlen2]
    have hlast : statuses.getLast hne ≠ 0 := hst _ (List.getLast_mem hne)
    have hinit : ∀ st ∈ statuses.dropLast, st ≠ 0 := fun st hmem =>
      hst st (List.dropLast_subset statuses hmem)
    rw [← hsplit, run_isr_append, run_isr_no_match statuses.dropLast
      { s with rtc_timeout := (s.rtc_counter + n) % 4294967296 } hc hinit,
      run_isr_cons, run_isr_nil, rtc_isr_tick_match _ _ hlast]
    · simp only [hdl]
      refine ⟨?_, ?_, ?_⟩
      · congr 2
        unfold u32sub toU32
        omega
      · omega
      · omega
    · simp only [hdl]
      omega
    · intro k hk1 hk2
      rw [hdl] at hk2
      show (s.rtc_counter + k) % 4294967296 ≠ (s.rtc_counter + n) % 4294967296
      omega
  · intro hm
    rw [hm]
    unfold toU32
    omega

/-- Scenario B of the specification: three ticks requested at counter and
mark `0`; two tick interrupts announce nothing, the third announces `3`. -/
theorem periodic_set_timeout_then_ticks_witness :
    (run_isr [128, 128] (z_clock_set_timeout 3 false ⟨0, 0, 0, 10, false, []⟩)).announced = [] ∧
    (run_isr [128, 128, 128] (z_clock_set_timeout 3 false ⟨0, 0, 0, 10, false, []⟩)).announced
        = [3] ∧
    (run_isr [128, 128, 128] (z_clock_set_timeout 3 false ⟨0, 0, 0, 10, false, []⟩)).rtc_last
        = 3 := by
  have h3 := periodic_set_timeout_then_ticks 3 false ⟨0, 0, 0, 10, false, []⟩
    [128, 128, 128] (by decide) (by decide) (by decide) (by decide)
  have h2 := periodic_set_timeout_then_ticks 3 false ⟨0, 0, 0, 10, false, []⟩
    [128, 128] (by decide) (by decide) (by decide) (by decide)
  have e := h3.2.2.2.1 (by decide)
  exact ⟨h2.2.2.1 (by decide), e.1, e.2.1⟩

end Periodic

namespace Tickless

/-- C3. The tickless `z_clock_set_timeout` decides by the lead-time threshold:
with `R` the rounded distance, `R < 7` sets the interrupt pending and leaves
the comparator alone, `R >= 7` writes `(count + R) mod 2^32` into the
comparator and forces no interrupt; `rtc_last` is unchanged either way. -/
theorem tickless_threshold_decision (CPT count : Nat) (ticks : Int) (idle : Bool)
    (s : State) :
    (rounded_timeout CPT count ticks s < 7 →
      (z_clock_set_timeout CPT count ticks idle s).irq_pending = true ∧
      (z_clock_set_timeout CPT count ticks idle s).comp0 = s.comp0) ∧
    (7 ≤ rounded_timeout CPT count ticks s →
      (z_clock_set_timeout CPT count ticks idle s).comp0
          = (count + rounded_timeout CPT count ticks s) % 4294967296 ∧
      (z_clock_set_timeout CPT count ticks idle s).irq_pending = s.irq_pending) ∧
    (z_clock_set_timeout CPT count ticks idle s).rtc_last = s.rtc_last := by
  rw [z_clock_set_timeout_eq]
  unfold TICK_THRESHOLD
  by_cases h : rounded_timeout CPT count ticks s < 7
  · rw [if_pos h]
    exact ⟨fun _ => ⟨rfl, rfl⟩, fun h7 => absurd h (Nat.not_lt.mpr h7), rfl⟩
  · rw [if_neg h]
    exact ⟨fun h7 => absurd h7 h, fun _ => ⟨rfl, rfl⟩, rfl⟩

/-- Both outcomes at `CYCLES_PER_TICK = 3`, counter and mark at `0`: two ticks
round to `6 < 7` and force the interrupt, three ticks round to `9` and
program the comparator. -/
theorem tickless_threshold_decision_witness :
    (rounded_timeout 3 0 2 ⟨0, 0, false, []⟩ < 7 ∧
      (z_clock_set_timeout 3 0 2 false ⟨0, 0, false, []⟩).irq_pending = true ∧
      (z_clock_set_timeout 3 0 2 false ⟨0, 0, false, []⟩).comp0 = 0) ∧
    (7 ≤ rounded_timeout 3 0 3 ⟨0, 0, false, []⟩ ∧
      (z_clock_set_timeout 3 0 3 false ⟨0, 0, false, []⟩).comp0
          = (0 + rounded_timeout 3 0 3 ⟨0, 0, false, []⟩) % 4294967296 ∧
      (z_clock_set_timeout 3 0 3 false ⟨0, 0, false, []⟩).irq_pending = false) :=
  ⟨⟨by decide,
      (tickless_threshold_decision 3 0 2 false ⟨0, 0, false, []⟩).1 (by decide)⟩,
    ⟨by decide,
      (tickless_threshold_decision 3 0 3 false ⟨0, 0, false, []⟩).2.1 (by decide)⟩⟩

/-- For `CYCLES_PER_TICK >= 2` the value of `MAX_TICKS` is a non-negative
`s32_t`. -/
theorem toS32_MAX_TICKS (CPT : Nat) (h1 : 2 ≤ CPT) (h2 : CPT < 2147483648) :
    toS32 (MAX_TICKS CPT) = (MAX_TICKS CPT : Int) := by
  obtain ⟨h3, h4⟩ := MAX_TICKS_eq CPT (by omega) h2
  have h5 : 4294967295 / CPT ≤ 4294967295 / 2 := Nat.div_le_div_left h1 (by decide)
  have h6 : 4294967295 / 2 = 2147483647 := by decide
  unfold toS32
  rw [if_pos (by omega), Nat.mod_eq_of_lt (by omega)]

/-- C4. Tickless clamping: for `CYCLES_PER_TICK` in `2 .. 2^31 - 1`, a signed
32-bit `ticks` that is negative or above `MAX_TICKS` has the same effect on
the whole state as `MAX_TICKS` itself, where `MAX_TICKS` is
`(2^32 - 1) / CYCLES_PER_TICK - 2`; the function is total. -/
theorem tickless_clamp_out_of_range (CPT count : Nat) (ticks : Int) (idle : Bool)
    (s : State)
    (hc1 : 2 ≤ CPT) (hc2 : CPT ≤ 2147483647)
    (hs1 : -2147483648 ≤ ticks) (hs2 : ticks ≤ 2147483647)
    (hout : ticks < 0 ∨ (MAX_TICKS CPT : Int) < ticks) :
    MAX_TICKS CPT = 4294967295 / CPT - 2 ∧
    z_clock_set_timeout CPT count ticks idle s
      = z_clock_set_timeout CPT count (MAX_TICKS CPT : Int) idle s := by
  have hc3 : CPT < 2147483648 := by omega
  have hM := toS32_MAX_TICKS CPT hc1 hc3
  have h1 : clamp_ticks CPT ticks = (MAX_TICKS CPT : Int) := by
    unfold clamp_ticks
    rw [if_pos, hM]
    rcases hout with h | h
    · exact Or.inl h
    · by_cases h0 : ticks < 0
      · exact Or.inl h0
      · right
        unfold toU32
        omega
  have h2 : clamp_ticks CPT (MAX_TICKS CPT : Int) = (MAX_TICKS CPT : Int) :=
    clamp_ticks_of_le CPT (MAX_TICKS CPT) (by omega) hc3 (Nat.le_refl _)
  refine ⟨(MAX_TICKS_eq CPT (by omega) hc3).2, ?_⟩
  simp only [z_clock_set_timeout, h1, h2]

/-- At `CYCLES_PER_TICK = 10`, `MAX_TICKS` is `429496727`; the request `-1`
(`K_FOREVER`) programs the same comparator value as `MAX_TICKS`. -/
theorem tickless_clamp_out_of_range_witness :
    MAX_TICKS 10 = 429496727 ∧
    z_clock_set_timeout 10 3 (-1) false ⟨0, 0, false, []⟩
      = z_clock_set_timeout 10 3 (MAX_TICKS 10 : Int) false ⟨0, 0, false, []⟩ := by
  have h := tickless_clamp_out_of_range 10 3 (-1) false ⟨0, 0, false, []⟩
    (by decide) (by decide) (by decide) (by decide) (Or.inl (by decide))
  exact ⟨by decide, h.2⟩

/-- C5. `MAX_TICKS` keeps the tickless timeout computation free of overflow:
for `CYCLES_PER_TICK` in `1 .. 2^31 - 1` and `ticks` in `0 .. MAX_TICKS`, the
exact value `ticks * CPT + p + CPT - 1`, with `p` the distance of the counter
from the mark modulo `CPT`, is at most `2^32 - 1`; so the sum of lines 169-170
and the round-up of lines 173-174 equal their exact values. -/
theorem tickless_timeout_no_overflow (CPT count : Nat) (ticks : Int) (s : State)
    (hc1 : 1 ≤ CPT) (hc2 : CPT ≤ 2147483647)
    (ht0 : 0 ≤ ticks) (ht1 : ticks ≤ (MAX_TICKS CPT : Int)) :
    ticks.toNat * CPT + u32sub count s.rtc_last % CPT + CPT - 1 ≤ 4294967295 ∧
    clamp_ticks CPT ticks = ticks ∧
    timeout_cycles CPT count ticks s
      = ticks.toNat * CPT + u32sub count s.rtc_last % CPT ∧
    rounded_timeout CPT count ticks s
      = (ticks.toNat * CPT + u32sub count s.rtc_last % CPT + CPT - 1) / CPT * CPT := by
  lift ticks to ℕ using ht0 with n
  have hn : n ≤ MAX_TICKS CPT := by exact_mod_cast ht1
  have hc3 : CPT < 2147483648 := by omega
  obtain ⟨h3, h4⟩ := timeout_cycles_exact CPT n count s hc1 hc3 hn
  have h5 := clamp_ticks_of_le CPT n hc1 hc3 hn
  rw [Int.toNat_natCast]
  refine ⟨h4, h5, h3, ?_⟩
  unfold rounded_timeout
  rw [h5, h3, round_up_exact CPT _ hc1 (by omega)]

/-- The largest request at `CYCLES_PER_TICK = 10` with the counter `9` cycles
after the mark: the exact value is `4294967288`, the rounded distance
`4294967280`. -/
theorem tickless_timeout_no_overflow_witness :
    (429496727 : Int) ≤ (MAX_TICKS 10 : Int) ∧
    (429496727 : Int).toNat * 10 + u32sub 9 0 % 10 + 10 - 1 ≤ 4294967295 ∧
    rounded_timeout 10 9 429496727 ⟨0, 0, false, []⟩
      = ((429496727 : Int).toNat * 10 + u32sub 9 0 % 10 + 10 - 1) / 10 * 10 := by
  have h := tickless_timeout_no_overflow 10 9 429496727 ⟨0, 0, false, []⟩
    (by decide) (by decide) (by decide) (by decide)
  exact ⟨by decide, h.1, h.2.2.2⟩

end Tickless

namespace Tickless

/-- The programmed comparator keeps the phase of the counter: its distance
from the mark is congruent modulo `CPT` to the distance of the counter from
the mark, so it is a whole number of ticks only when the counter was. -/
theorem comparator_phase (CPT count : Nat) (ticks : Int) (idle : Bool) (s : State)
    (hc1 : 1 ≤ CPT) (hc2 : CPT < 2147483648)
    (ht0 : 0 ≤ ticks) (ht1 : ticks ≤ (MAX_TICKS CPT : Int))
    (hR : 7 ≤ rounded_timeout CPT count ticks s)
    (hd : u32sub count s.rtc_last + rounded_timeout CPT count ticks s < 4294967296) :
    u32sub (z_clock_set_timeout CPT count ticks idle s).comp0 s.rtc_last % CPT
      = u32sub count s.rtc_last % CPT := by
  lift ticks to ℕ using ht0 with n
  have hn : n ≤ MAX_TICKS CPT := by exact_mod_cast ht1
  have hRv := rounded_timeout_in_range CPT n count s hc1 hc2 hn
  have hsub := u32sub_add_cancel count s.rtc_last _ hd
  rw [z_clock_set_timeout_eq, if_neg (by unfold TICK_THRESHOLD; omega)]
  show u32sub (u32add count (rounded_timeout CPT count (n : Int) s)) s.rtc_last % CPT = _
  rw [hsub, hRv]
  by_cases h0 : u32sub count s.rtc_last % CPT = 0
  · rw [if_pos h0, Nat.add_mul_mod_self_right]
  · rw [if_neg h0, Nat.add_mul_mod_self_right]

/-- C6. The tickless target is not always on a tick boundary: with
`CYCLES_PER_TICK = 10`, mark `0`, counter `3` and five ticks requested, the
rounded distance is `60`, the comparator is programmed with `63`, and its
distance from the mark is not a multiple of `10`. -/
theorem tickless_comparator_off_boundary :
    rounded_timeout 10 3 5 ⟨0, 0, false, []⟩ = 60 ∧
    u32sub 3 0 + rounded_timeout 10 3 5 ⟨0, 0, false, []⟩ < 4294967296 ∧
    (z_clock_set_timeout 10 3 5 false ⟨0, 0, false, []⟩).comp0 = 63 ∧
    u32sub (z_clock_set_timeout 10 3 5 false ⟨0, 0, false, []⟩).comp0 0 % 10 = 3 := by
  decide

/-- C7. The tickless `z_clock_elapsed` is safe under wrap-around: for every
`CYCLES_PER_TICK` and every mark, with `e < 2^32` cycles truly elapsed, a
counter reading of `(rtc_last + e) mod 2^32` (also one that wrapped to a value
below the mark) yields `e / CPT`, and the state is not changed. -/
theorem tickless_elapsed_wraparound (CPT e : Nat) (s : State) (he : e < 4294967296) :
    (z_clock_elapsed CPT ((s.rtc_last + e) % 4294967296) s).1 = e / CPT ∧
    (z_clock_elapsed CPT ((s.rtc_last + e) % 4294967296) s).2 = s := by
  have h : u32sub ((s.rtc_last + e) % 4294967296) s.rtc_last = e := by
    unfold u32sub
    omega
  simp only [z_clock_elapsed, h, and_self]

/-- A counter that wrapped: mark `4294967290`, `25` cycles later the counter
reads `19`, and two ticks of `10` cycles have elapsed. -/
theorem tickless_elapsed_wraparound_witness :
    (4294967290 + 25) % 4294967296 = 19 ∧
    (z_clock_elapsed 10 19 ⟨4294967290, 0, false, []⟩).1 = 2 := by
  have h := tickless_elapsed_wraparound 10 25 ⟨4294967290, 0, false, []⟩ (by decide)
  exact ⟨by decide, h.1⟩

/-- C8. The tickless interrupt handler: with the counter different from the
mark it makes exactly one `z_clock_announce` call, with
`((count - rtc_last) mod 2^32) / CPT`, and then sets `rtc_last` to `count`;
with the counter equal to the mark it makes no call and leaves `rtc_last`
unchanged.  The comparator and the pending bit are never changed. -/
theorem tickless_isr_announce (CPT status count : Nat) (s : State) :
    (count ≠ s.rtc_last →
      (rtc_isr CPT status count s).announced
          = s.announced ++ [u32sub count s.rtc_last / CPT] ∧
      (rtc_isr CPT status count s).rtc_last = count) ∧
    (count = s.rtc_last →
      (rtc_isr CPT status count s).announced = s.announced ∧
      (rtc_isr CPT status count s).rtc_last = s.rtc_last) ∧
    (rtc_isr CPT status count s).comp0 = s.comp0 ∧
    (rtc_isr CPT status count s).irq_pending = s.irq_pending := by
  unfold rtc_isr
  by_cases h : count ≠ s.rtc_last
  · rw [if_pos h]
    exact ⟨fun _ => ⟨rfl, rfl⟩, fun he => absurd he h, rfl, rfl⟩
  · rw [if_neg h]
    exact ⟨fun hne => absurd hne h, fun _ => ⟨rfl, rfl⟩, rfl, rfl⟩

/-- The handler at counter `50` with the mark at `0` announces `5` and moves
the mark to `50`; run again at `50` it announces nothing more. -/
theorem tickless_isr_announce_witness :
    (rtc_isr 10 1 50 ⟨0, 50, false, []⟩).announced = [] ++ [u32sub 50 0 / 10] ∧
    (rtc_isr 10 1 50 ⟨0, 50, false, []⟩).rtc_last = 50 ∧
    (rtc_isr 10 0 50 ⟨50, 50, false, [5]⟩).announced = [5] ∧
    (rtc_isr 10 0 50 ⟨50, 50, false, [5]⟩).rtc_last = 50 :=
  ⟨((tickless_isr_announce 10 1 50 ⟨0, 50, false, []⟩).1 (by decide)).1,
    ((tickless_isr_announce 10 1 50 ⟨0, 50, false, []⟩).1 (by decide)).2,
    ((tickless_isr_announce 10 0 50 ⟨50, 50, false, [5]⟩).2.1 (by decide)).1,
    ((tickless_isr_announce 10 0 50 ⟨50, 50, false, [5]⟩).2.1 (by decide)).2⟩

end Tickless

namespace Periodic

/-- C9. The periodic zero-tick request: `z_clock_set_timeout(0)` sets the RTC
interrupt pending, announces nothing and changes none of `rtc_counter`,
`rtc_last`, `rtc_timeout`; the handler entered with empty status flags makes
exactly one call, `z_clock_announce(0)`, and changes none of the three. -/
theorem periodic_zero_ticks (idle : Bool) (s : State) :
    ((z_clock_set_timeout 0 idle s).irq_pending = true ∧
      (z_clock_set_timeout 0 idle s).announced = s.announced ∧
      (z_clock_set_timeout 0 idle s).rtc_counter = s.rtc_counter ∧
      (z_clock_set_timeout 0 idle s).rtc_last = s.rtc_last ∧
      (z_clock_set_timeout 0 idle s).rtc_timeout = s.rtc_timeout) ∧
    ((rtc_isr 0 s).announced = s.announced ++ [0] ∧
      (rtc_isr 0 s).rtc_counter = s.rtc_counter ∧
      (rtc_isr 0 s).rtc_last = s.rtc_last ∧
      (rtc_isr 0 s).rtc_timeout = s.rtc_timeout) ∧
    (rtc_isr 0 (z_clock_set_timeout 0 idle s)).announced = s.announced ++ [0] :=
  ⟨⟨rfl, rfl, rfl, rfl, rfl⟩, ⟨rfl, rfl, rfl, rfl⟩, rfl⟩

end Periodic

namespace Tickless

/-- C10, as stated, fails: at `CYCLES_PER_TICK = 10` with the mark at `0`, a
zero-tick request at counter `3` forces no interrupt and programs the
comparator with `13`; a zero-tick request at counter `20` forces the
interrupt, and the handler run at counter `20` announces `2`, not `0`. -/
theorem tickless_zero_ticks_counterexample :
    ((z_clock_set_timeout 10 3 0 false ⟨0, 0, false, []⟩).irq_pending = false ∧
      (z_clock_set_timeout 10 3 0 false ⟨0, 0, false, []⟩).comp0 = 13) ∧
    ((z_clock_set_timeout 10 20 0 false ⟨0, 0, false, []⟩).irq_pending = true ∧
      (rtc_isr 10 0 20 (z_clock_set_timeout 10 20 0 false ⟨0, 0, false, []⟩)).announced
        = [2]) := by
  decide

/-- C10, amended. For `CYCLES_PER_TICK` in `1 .. 2^31 - 1`, the rounded
distance `R` of a zero-tick request is `0` when the counter stands a whole
number of ticks after the mark and `CPT` otherwise; the request forces the
interrupt, leaving the comparator alone, when `R < 7`, and when `R >= 7` it
forces nothing and changes the comparator only.  The
handler run afterwards at a counter value `c` different from the mark makes
exactly one `z_clock_announce` call, with `((c - rtc_last) mod 2^32) / CPT`,
which is `0` exactly when fewer than `CPT` cycles have passed since the mark. -/
theorem tickless_zero_ticks (CPT count status c : Nat) (idle : Bool) (s : State)
    (hc1 : 1 ≤ CPT) (hc2 : CPT ≤ 2147483647) :
    rounded_timeout CPT count 0 s
      = (if u32sub count s.rtc_last % CPT = 0 then 0 else CPT) ∧
    (rounded_timeout CPT count 0 s < 7 →
      (z_clock_set_timeout CPT count 0 idle s).irq_pending = true ∧
      (z_clock_set_timeout CPT count 0 idle s).comp0 = s.comp0) ∧
    (7 ≤ rounded_timeout CPT count 0 s →
      (z_clock_set_timeout CPT count 0 idle s).irq_pending = s.irq_pending ∧
      z_clock_set_timeout CPT count 0 idle s
        = { s with comp0 := (z_clock_set_timeout CPT count 0 idle s).comp0 }) ∧
    (c ≠ s.rtc_last →
      (rtc_isr CPT status c (z_clock_set_timeout CPT count 0 idle s)).announced
          = s.announced ++ [u32sub c s.rtc_last / CPT] ∧
      (u32sub c s.rtc_last / CPT = 0 ↔ u32sub c s.rtc_last < CPT)) := by
  have hR := rounded_timeout_in_range CPT 0 count s hc1 (by omega) (Nat.zero_le _)
  simp only [Nat.cast_zero, Nat.zero_mul, Nat.zero_add, Nat.one_mul] at hR
  have hpos : 0 < CPT := by omega
  refine ⟨hR, ?_, ?_, ?_⟩
  · intro h
    rw [z_clock_set_timeout_eq, if_pos (by unfold TICK_THRESHOLD; exact h)]
    exact ⟨rfl, rfl⟩
  · intro h
    rw [z_clock_set_timeout_eq, if_neg (by unfold TICK_THRESHOLD; omega)]
    exact ⟨rfl, rfl⟩
  · intro hne
    refine ⟨?_, Nat.div_eq_zero_iff hpos⟩
    rw [z_clock_set_timeout_eq]
    by_cases h : rounded_timeout CPT count 0 s < TICK_THRESHOLD
    · rw [if_pos h]
      simp only [rtc_isr, if_pos hne]
    · rw [if_neg h]
      simp only [rtc_isr, if_pos hne]

/-- The amended C10 at `CYCLES_PER_TICK = 4`, mark `0`, counter `3`: the
rounded distance is `4 < 7`, the interrupt is forced, and the handler run at
counter `3` announces `0`. -/
theorem tickless_zero_ticks_witness :
    rounded_timeout 4 3 0 ⟨0, 0, false, []⟩ = 4 ∧
    (z_clock_set_timeout 4 3 0 false ⟨0, 0, false, []⟩).irq_pending = true ∧
    (rtc_isr 4 0 3 (z_clock_set_timeout 4 3 0 false ⟨0, 0, false, []⟩)).announced = [0] := by
  have h := tickless_zero_ticks 4 3 0 3 false ⟨0, 0, false, []⟩ (by decide) (by decide)
  exact ⟨by decide, (h.2.1 (by decide)).1, (h.2.2.2 (by decide)).1⟩

end Tickless

namespace Periodic

/-- The periodic `z_clock_set_timeout` for a negative argument. -/
theorem z_clock_set_timeout_neg (ticks : Int) (idle : Bool) (s : State) (h : ticks < 0) :
    z_clock_set_timeout ticks idle s = { s with rtc_timeout := s.rtc_counter } := by
  simp only [z_clock_set_timeout, h, if_true]

/-- A run of exactly `n` genuine ticks towards a target `n` ticks ahead
(`1 <= n <= 2^32`): one announce, made by the last tick, of the distance of
the target from the mark; counter and mark end on the target. -/
theorem run_isr_reach (l : List Nat) (s : State) (n : Nat)
    (hc : s.rtc_counter < 4294967296) (hst : ∀ st ∈ l, st ≠ 0)
    (hlen : l.length = n) (hn1 : 1 ≤ n) (hn2 : n ≤ 4294967296)
    (hT : s.rtc_timeout = (s.rtc_counter + n) % 4294967296) :
    run_isr l s =
      { s with rtc_counter := s.rtc_timeout
               announced := s.announced ++ [u32sub s.rtc_timeout s.rtc_last]
               rtc_last := s.rtc_timeout } := by
  have hne : l ≠ [] := by
    intro h
    rw [h] at hlen
    simp at hlen
    omega
  have hsplit := List.dropLast_append_getLast hne
  have hdl : l.dropLast.length = n - 1 := by
    rw [List.length_dropLast, hlen]
  have hlast : l.getLast hne ≠ 0 := hst _ (List.getLast_mem hne)
  have hinit : ∀ st ∈ l.dropLast, st ≠ 0 := fun st hmem =>
    hst st (List.dropLast_subset l hmem)
  rw [← hsplit, run_isr_append, run_isr_no_match l.dropLast s hc hinit,
    run_isr_cons, run_isr_nil, rtc_isr_tick_match _ _ hlast]
  · simp only [hdl]
    have e : ((s.rtc_counter + (n - 1)) % 4294967296 + 1) % 4294967296 = s.rtc_timeout := by
      rw [hT]
      omega
    rw [e]
  · simp only [hdl]
    rw [hT]
    omega
  · intro k hk1 hk2
    rw [hdl] at hk2
    rw [hT]
    omega

/-- C11. The periodic forever-wait: a negative request sets `rtc_timeout` to
`rtc_counter`, changes neither `rtc_counter` nor `rtc_last`, forces no
interrupt and announces nothing; a following run of fewer than `2^32` genuine
tick interrupts makes no `z_clock_announce` call. -/
theorem periodic_forever_wait (ticks : Int) (idle : Bool) (s : State)
    (statuses : List Nat)
    (ht : ticks < 0) (hc : s.rtc_counter < 4294967296)
    (hst : ∀ st ∈ statuses, st ≠ 0) (hn : statuses.length < 4294967296) :
    (z_clock_set_timeout ticks idle s).rtc_timeout = s.rtc_counter ∧
    (z_clock_set_timeout ticks idle s).rtc_counter = s.rtc_counter ∧
    (z_clock_set_timeout ticks idle s).rtc_last = s.rtc_last ∧
    (z_clock_set_timeout ticks idle s).irq_pending = s.irq_pending ∧
    (z_clock_set_timeout ticks idle s).announced = s.announced ∧
    (run_isr statuses (z_clock_set_timeout ticks idle s)).announced = s.announced := by
  rw [z_clock_set_timeout_neg ticks idle s ht]
  refine ⟨rfl, rfl, rfl, rfl, rfl, ?_⟩
  rw [run_isr_no_match statuses { s with rtc_timeout := s.rtc_counter } hc hst]
  intro k hk1 hk2
  show (s.rtc_counter + k) % 4294967296 ≠ s.rtc_counter
  omega

/-- A request of `-1` at counter `7` with the mark at `4`, then three tick
interrupts: the target is `7` and nothing is announced. -/
theorem periodic_forever_wait_witness :
    (z_clock_set_timeout (-1) false ⟨4, 7, 9, 10, false, []⟩).rtc_timeout = 7 ∧
    (run_isr [128, 128, 128]
      (z_clock_set_timeout (-1) false ⟨4, 7, 9, 10, false, []⟩)).announced = [] := by
  have h := periodic_forever_wait (-1) false ⟨4, 7, 9, 10, false, []⟩ [128, 128, 128]
    (by decide) (by decide) (by decide) (by decide)
  exact ⟨h.1, h.2.2.2.2.2⟩

end Periodic

namespace Periodic

/-- C12. The periodic forever-then-finite sequence: from a state with
`rtc_last = rtc_counter`, the trace `z_clock_set_timeout(-1)`, `k < 2^32`
genuine tick interrupts, `z_clock_set_timeout(t)` with `t` in `1 .. 2^31 - 1`,
then genuine tick interrupts: nothing is announced during the forever-wait
window nor by fewer than `t` interrupts after the second request, and after
exactly `t` of them exactly one `z_clock_announce` call has been made, with
`(k + t) mod 2^32`. -/
theorem periodic_forever_then_finite (s : State) (l1 l2 : List Nat) (t : Int)
    (idle1 idle2 : Bool)
    (hm : s.rtc_last = s.rtc_counter) (hc : s.rtc_counter < 4294967296)
    (hk : l1.length < 4294967296) (hst1 : ∀ st ∈ l1, st ≠ 0)
    (ht1 : 1 ≤ t) (ht2 : t ≤ 2147483647) (hst2 : ∀ st ∈ l2, st ≠ 0) :
    (run_isr l1 (z_clock_set_timeout (-1) idle1 s)).announced = s.announced ∧
    (z_clock_set_timeout t idle2
      (run_isr l1 (z_clock_set_timeout (-1) idle1 s))).announced = s.announced ∧
    ((l2.length : Int) < t →
      (run_isr l2 (z_clock_set_timeout t idle2
        (run_isr l1 (z_clock_set_timeout (-1) idle1 s)))).announced = s.announced) ∧
    ((l2.length : Int) = t →
      (run_isr l2 (z_clock_set_timeout t idle2
        (run_isr l1 (z_clock_set_timeout (-1) idle1 s)))).announced
        = s.announced ++ [(l1.length + t.toNat) % 4294967296]) := by
  lift t to ℕ using (by omega) with n
  have hn1 : 1 ≤ n := by omega
  have hn2 : n < 4294967296 := by omega
  have e1 : run_isr l1 (z_clock_set_timeout (-1) idle1 s)
      = { s with rtc_timeout := s.rtc_counter,
                 rtc_counter := (s.rtc_counter + l1.length) % 4294967296 } := by
    rw [z_clock_set_timeout_neg (-1) idle1 s (by decide),
      run_isr_no_match l1 { s with rtc_timeout := s.rtc_counter } hc hst1]
    intro k hk1 hk2
    show (s.rtc_counter + k) % 4294967296 ≠ s.rtc_counter
    omega
  have e2 : z_clock_set_timeout (n : Int) idle2
        (run_isr l1 (z_clock_set_timeout (-1) idle1 s))
      = { s with rtc_timeout := ((s.rtc_counter + l1.length) % 4294967296 + n) % 4294967296,
                 rtc_counter := (s.rtc_counter + l1.length) % 4294967296 } := by
    rw [e1, z_clock_set_timeout_pos n idle2 _ hn1 hn2]
  have hc3 : (s.rtc_counter + l1.length) % 4294967296 < 4294967296 :=
    Nat.mod_lt _ (by decide)
  rw [e2, Int.toNat_natCast]
  refine ⟨by rw [e1], rfl, ?_, ?_⟩
  · intro hlen
    have hlen2 : l2.length < n := by omega
    rw [run_isr_no_match l2 _ hc3 hst2]
    intro k hk1 hk2
    show ((s.rtc_counter + l1.length) % 4294967296 + k) % 4294967296
      ≠ ((s.rtc_counter + l1.length) % 4294967296 + n) % 4294967296
    omega
  · intro hlen
    have hlen2 : l2.length = n := by omega
    rw [run_isr_reach l2 _ n hc3 hst2 hlen2 hn1 (by omega) rfl]
    show s.announced ++ [u32sub
        (((s.rtc_counter + l1.length) % 4294967296 + n) % 4294967296) s.rtc_last] = _
    congr 2
    rw [hm]
    unfold u32sub
    omega

/-- Scenario C of the specification with `t = 4`: nothing is announced by two
tick interrupts of the forever-wait window nor by the first three after the
second request, and the fourth announces `2 + 4 = 6`. -/
theorem periodic_forever_then_finite_witness :
    (run_isr [128, 128] (z_clock_set_timeout (-1) false ⟨0, 0, 0, 10, false, []⟩)).announced
      = [] ∧
    (run_isr [128, 128, 128] (z_clock_set_timeout 4 false
      (run_isr [128, 128] (z_clock_set_timeout (-1) false ⟨0, 0, 0, 10, false, []⟩)))).announced
      = [] ∧
    (run_isr [128, 128, 128, 128] (z_clock_set_timeout 4 false
      (run_isr [128, 128] (z_clock_set_timeout (-1) false ⟨0, 0, 0, 10, false, []⟩)))).announced
      = [6] := by
  have h3 := periodic_forever_then_finite ⟨0, 0, 0, 10, false, []⟩ [128, 128]
    [128, 128, 128] 4 false false rfl (by decide) (by decide) (by decide) (by decide)
    (by decide) (by decide)
  have h4 := periodic_forever_then_finite ⟨0, 0, 0, 10, false, []⟩ [128, 128]
    [128, 128, 128, 128] 4 false false rfl (by decide) (by decide) (by decide) (by decide)
    (by decide) (by decide)
  exact ⟨h3.1, h3.2.2.1 (by decide), h4.2.2.2 (by decide)⟩

end Periodic

namespace Periodic

/-- No branch of the periodic `z_clock_set_timeout` touches the counter, the
mark or the announce record. -/
theorem z_clock_set_timeout_frame (ticks : Int) (idle : Bool) (s : State) :
    (z_clock_set_timeout ticks idle s).rtc_counter = s.rtc_counter ∧
    (z_clock_set_timeout ticks idle s).rtc_last = s.rtc_last ∧
    (z_clock_set_timeout ticks idle s).announced = s.announced := by
  unfold z_clock_set_timeout
  by_cases h1 : ticks < 0
  · rw [if_pos h1]
    exact ⟨rfl, rfl, rfl⟩
  · rw [if_neg h1]
    by_cases h2 : ticks = 0
    · rw [if_pos h2]
      exact ⟨rfl, rfl, rfl⟩
    · rw [if_neg h2]
      exact ⟨rfl, rfl, rfl⟩

/-- One call keeps the bookkeeping exact: the counter is the number of genuine
ticks and the mark is the sum of the announced values, both modulo `2^32`. -/
theorem step_invariant (e : Event) (s : State) (n : Nat)
    (hc : s.rtc_counter = n % 4294967296)
    (hl : s.rtc_last = s.announced.sum % 4294967296) :
    (step e s).rtc_counter = (n + (if is_genuine_tick e then 1 else 0)) % 4294967296 ∧
    (step e s).rtc_last = (step e s).announced.sum % 4294967296 := by
  cases e with
  | set_timeout ticks idle =>
    obtain ⟨h1, h2, h3⟩ := z_clock_set_timeout_frame ticks idle s
    simp only [step, is_genuine_tick, h1, h2, h3, hc, hl]
    simp
  | elapsed =>
    simp only [step, z_clock_elapsed, is_genuine_tick, hc, hl]
    simp
  | idle_exit =>
    simp only [step, z_clock_idle_exit, is_genuine_tick, hc, hl]
    simp
  | isr status =>
    by_cases hs : status = 0
    · subst hs
      simp only [step, rtc_isr, is_genuine_tick, hc, hl]
      simp
    · have hg : is_genuine_tick (Event.isr status) = true := by
        simp [is_genuine_tick, hs]
      rw [hg, if_pos rfl]
      by_cases hT : (s.rtc_counter + 1) % 4294967296 = s.rtc_timeout
      · simp only [step]
        rw [rtc_isr_tick_match status s hs hT]
        refine ⟨?_, ?_⟩
        · show (s.rtc_counter + 1) % 4294967296 = _
          omega
        · show (s.rtc_counter + 1) % 4294967296
            = (s.announced ++ [u32sub ((s.rtc_counter + 1) % 4294967296) s.rtc_last]).sum
                % 4294967296
          rw [List.sum_append, List.sum_singleton]
          unfold u32sub
          omega
      · simp only [step]
        rw [rtc_isr_tick_no_match status s hs hT]
        refine ⟨?_, hl⟩
        show (s.rtc_counter + 1) % 4294967296 = _
        omega

theorem genuine_ticks_cons (e : Event) (es : List Event) :
    genuine_ticks (e :: es) = (if is_genuine_tick e then 1 else 0) + genuine_ticks es := by
  unfold genuine_ticks
  rw [List.countP_cons]
  omega

/-- A sequence of calls keeps the bookkeeping exact. -/
theorem run_invariant (es : List Event) (s : State) (n : Nat)
    (hc : s.rtc_counter = n % 4294967296)
    (hl : s.rtc_last = s.announced.sum % 4294967296) :
    (run es s).rtc_counter = (n + genuine_ticks es) % 4294967296 ∧
    (run es s).rtc_last = (run es s).announced.sum % 4294967296 := by
  induction es generalizing s n with
  | nil => exact ⟨hc, hl⟩
  | cons e es ih =>
    obtain ⟨h1, h2⟩ := step_invariant e s n hc hl
    have h3 := ih (step e s) _ h1 h2
    rw [genuine_ticks_cons, ← Nat.add_assoc]
    exact h3

/-- C13. The periodic mode never drops or double-counts a tick: in every state
reached from the initialised state by any finite sequence of
`z_clock_set_timeout` (any argument), `z_clock_elapsed`, `z_clock_idle_exit`,
genuine tick interrupts and forced interrupts, `rtc_counter` is the number of
genuine tick interrupts modulo `2^32`, `rtc_last` is the sum of all announced
values modulo `2^32`, and the announced sum plus `z_clock_elapsed()` is the
number of genuine tick interrupts modulo `2^32`. -/
theorem periodic_tick_conservation (CPT : Nat) (s0 : State) (es : List Event)
    (h0 : s0.announced = []) :
    (z_clock_driver_init CPT s0).2.rtc_counter = 0 ∧
    (z_clock_driver_init CPT s0).2.rtc_last = 0 ∧
    (z_clock_driver_init CPT s0).2.rtc_timeout = 0 ∧
    (run es (z_clock_driver_init CPT s0).2).rtc_counter
        = genuine_ticks es % 4294967296 ∧
    (run es (z_clock_driver_init CPT s0).2).rtc_last
        = (run es (z_clock_driver_init CPT s0).2).announced.sum % 4294967296 ∧
    ((run es (z_clock_driver_init CPT s0).2).announced.sum
        + (z_clock_elapsed (run es (z_clock_driver_init CPT s0).2)).1) % 4294967296
      = genuine_ticks es % 4294967296 := by
  have hi : (z_clock_driver_init CPT s0).2.announced.sum % 4294967296 = 0 := by
    show s0.announced.sum % 4294967296 = 0
    rw [h0]
    rfl
  obtain ⟨h1, h2⟩ := run_invariant es (z_clock_driver_init CPT s0).2 0 rfl hi.symm
  rw [Nat.zero_add] at h1
  refine ⟨rfl, rfl, rfl, h1, h2, ?_⟩
  show ((run es (z_clock_driver_init CPT s0).2).announced.sum
      + u32sub (run es (z_clock_driver_init CPT s0).2).rtc_counter
          (run es (z_clock_driver_init CPT s0).2).rtc_last) % 4294967296 = _
  rw [h1, h2]
  unfold u32sub
  omega

/-- A run with two requests, three genuine ticks, a forced interrupt and the
read-only calls: the announced values are `2` and `0`, one tick is not yet
reported, and `2 + 0 + 1 = 3`. -/
theorem periodic_tick_conservation_witness :
    (run [.set_timeout 2 false, .isr 128, .elapsed, .isr 128, .set_timeout 0 false, .isr 0,
          .idle_exit, .isr 128]
      (z_clock_driver_init 10 ⟨9, 9, 9, 9, true, []⟩).2).announced = [2, 0] ∧
    (z_clock_elapsed (run [.set_timeout 2 false, .isr 128, .elapsed, .isr 128,
          .set_timeout 0 false, .isr 0, .idle_exit, .isr 128]
      (z_clock_driver_init 10 ⟨9, 9, 9, 9, true, []⟩).2)).1 = 1 ∧
    (run [.set_timeout 2 false, .isr 128, .elapsed, .isr 128, .set_timeout 0 false, .isr 0,
          .idle_exit, .isr 128]
      (z_clock_driver_init 10 ⟨9, 9, 9, 9, true, []⟩).2).rtc_counter
      = genuine_ticks [.set_timeout 2 false, .isr 128, .elapsed, .isr 128,
          .set_timeout 0 false, .isr 0, .idle_exit, .isr 128] % 4294967296 := by
  have h := periodic_tick_conservation 10 ⟨9, 9, 9, 9, true, []⟩
    [.set_timeout 2 false, .isr 128, .elapsed, .isr 128, .set_timeout 0 false, .isr 0,
     .idle_exit, .isr 128] rfl
  exact ⟨by decide, by decide, h.2.2.2.1⟩

end Periodic

namespace Tickless

/-- C14. The tickless mode drops ticks: with `CYCLES_PER_TICK = 10` and the
mark at `0`, a one-tick request at counter `3` programs the comparator with
`23`, the handler at `23` announces `2`; a one-tick request at counter `30`
programs `50`, the handler at `50` announces `2`.  The announced sum is `4`,
`z_clock_elapsed()` at counter `50` is `0`, but `50 / 10 = 5` ticks have
elapsed. -/
theorem tickless_ticks_dropped :
    (z_clock_set_timeout 10 3 1 false ⟨0, 0, false, []⟩).comp0 = 23 ∧
    (z_clock_set_timeout 10 30 1 false
      (rtc_isr 10 1 23 (z_clock_set_timeout 10 3 1 false ⟨0, 0, false, []⟩))).comp0 = 50 ∧
    (run_isr 10 [(1, 23), (1, 50)] ⟨0, 0, false, []⟩).announced = [2, 2] ∧
    (run_isr 10 [(1, 23), (1, 50)] ⟨0, 0, false, []⟩).announced.sum
      + (z_clock_elapsed 10 50 (run_isr 10 [(1, 23), (1, 50)] ⟨0, 0, false, []⟩)).1 = 4 ∧
    50 / 10 = 5 := by
  decide

end Tickless

/-- C15. `z_clock_elapsed` is a read-only snapshot, stable and monotone: in
both modes it returns the state it was given, so a second call with the same
counter value returns the same value; and in tickless mode, for counter
readings `c1` then `c2` with `(c1 - rtc_last) mod 2^32 <= (c2 - rtc_last) mod
2^32`, the second result is at least the first. -/
theorem elapsed_stable_and_monotone (CPT c1 c2 : Nat) (s : Tickless.State)
    (p : Periodic.State) (h : u32sub c1 s.rtc_last ≤ u32sub c2 s.rtc_last) :
    (Tickless.z_clock_elapsed CPT c1 s).2 = s ∧
    (Periodic.z_clock_elapsed p).2 = p ∧
    (Tickless.z_clock_elapsed CPT c1 (Tickless.z_clock_elapsed CPT c1 s).2).1
      = (Tickless.z_clock_elapsed CPT c1 s).1 ∧
    (Periodic.z_clock_elapsed (Periodic.z_clock_elapsed p).2).1
      = (Periodic.z_clock_elapsed p).1 ∧
    (Tickless.z_clock_elapsed CPT c1 s).1
      ≤ (Tickless.z_clock_elapsed CPT c2 (Tickless.z_clock_elapsed CPT c1 s).2).1 :=
  ⟨rfl, rfl, rfl, rfl, Nat.div_le_div_right h⟩

/-- With the mark at `4294967290` and `CYCLES_PER_TICK = 10`, the readings
`4294967295` and then `19` (after a wrap) give `0` and then `2` ticks. -/
theorem elapsed_stable_and_monotone_witness :
    (Tickless.z_clock_elapsed 10 4294967295 ⟨4294967290, 0, false, []⟩).1 = 0 ∧
    (Tickless.z_clock_elapsed 10 19 ⟨4294967290, 0, false, []⟩).1 = 2 ∧
    (Tickless.z_clock_elapsed 10 4294967295 ⟨4294967290, 0, false, []⟩).1
      ≤ (Tickless.z_clock_elapsed 10 19
          (Tickless.z_clock_elapsed 10 4294967295 ⟨4294967290, 0, false, []⟩).2).1 :=
  ⟨by decide, by decide,
    (elapsed_stable_and_monotone 10 4294967295 19 ⟨4294967290, 0, false, []⟩
      ⟨0, 0, 0, 10, false, []⟩ (by decide)).2.2.2.2⟩

/-- C16. Only the interrupt handler moves the bookkeeping: in both modes
`z_clock_set_timeout`, `z_clock_elapsed` and `z_clock_idle_exit` leave
`rtc_last` unchanged, and in periodic mode also `rtc_counter`;
`z_clock_idle_exit` changes no state at all; and a run of `rtc_isr` that
changes `rtc_last` has also made a `z_clock_announce` call. -/
theorem bookkeeping_frame (CPT count status : Nat) (ticks : Int) (idle : Bool)
    (s : Tickless.State) (p : Periodic.State) :
    ((Tickless.z_clock_set_timeout CPT count ticks idle s).rtc_last = s.rtc_last ∧
      (Tickless.z_clock_elapsed CPT count s).2.rtc_last = s.rtc_last ∧
      Tickless.z_clock_idle_exit s = s) ∧
    ((Periodic.z_clock_set_timeout ticks idle p).rtc_last = p.rtc_last ∧
      (Periodic.z_clock_set_timeout ticks idle p).rtc_counter = p.rtc_counter ∧
      (Periodic.z_clock_elapsed p).2.rtc_last = p.rtc_last ∧
      (Periodic.z_clock_elapsed p).2.rtc_counter = p.rtc_counter ∧
      Periodic.z_clock_idle_exit p = p) ∧
    ((Tickless.rtc_isr CPT status count s).rtc_last ≠ s.rtc_last →
      ∃ x, (Tickless.rtc_isr CPT status count s).announced = s.announced ++ [x]) ∧
    ((Periodic.rtc_isr status p).rtc_last ≠ p.rtc_last →
      ∃ x, (Periodic.rtc_isr status p).announced = p.announced ++ [x]) := by
  obtain ⟨h1, h2, _⟩ := Periodic.z_clock_set_timeout_frame ticks idle p
  refine ⟨⟨?_, rfl, rfl⟩, ⟨h2, h1, rfl, rfl, rfl⟩, ?_, ?_⟩
  · rw [Tickless.z_clock_set_timeout_eq]
    by_cases h : Tickless.rounded_timeout CPT count ticks s < TICK_THRESHOLD
    · rw [if_pos h]
    · rw [if_neg h]
  · intro hne
    by_cases h : count ≠ s.rtc_last
    · exact ⟨u32sub count s.rtc_last / CPT, by simp only [Tickless.rtc_isr, if_pos h]⟩
    · exact absurd (by simp only [Tickless.rtc_isr, if_neg h]) hne
  · intro hne
    by_cases hs : status ≠ 0
    · by_cases hT : (p.rtc_counter + 1) % 4294967296 = p.rtc_timeout
      · rw [Periodic.rtc_isr_tick_match status p hs hT]
        exact ⟨_, rfl⟩
      · rw [Periodic.rtc_isr_tick_no_match status p hs hT] at hne
        exact absurd rfl hne
    · exact ⟨0, by simp only [Periodic.rtc_isr, if_neg hs]⟩

/-- Handler runs that move the mark, one in each mode, and the value each
announces: `5` for the tickless handler at counter `50` with the mark at `0`,
`3` for the periodic handler reaching the target `3` with the mark at `0`. -/
theorem bookkeeping_frame_witness :
    (Tickless.rtc_isr 10 1 50 ⟨0, 50, false, []⟩).rtc_last ≠ 0 ∧
    (∃ x, (Tickless.rtc_isr 10 1 50 ⟨0, 50, false, []⟩).announced = [] ++ [x]) ∧
    (Periodic.rtc_isr 1 ⟨0, 2, 3, 10, false, []⟩).rtc_last ≠ 0 ∧
    (∃ x, (Periodic.rtc_isr 1 ⟨0, 2, 3, 10, false, []⟩).announced = [] ++ [x]) :=
  ⟨by decide,
    (bookkeeping_frame 10 50 1 0 false ⟨0, 50, false, []⟩ ⟨0, 2, 3, 10, false, []⟩).2.2.1
      (by decide),
    by decide,
    (bookkeeping_frame 10 50 1 0 false ⟨0, 50, false, []⟩ ⟨0, 2, 3, 10, false, []⟩).2.2.2
      (by decide)⟩

namespace Periodic

/-- One action of an interleaving keeps the facts of the critical section:
once `irq_lock` has run and until `irq_unlock` runs, interrupts are masked;
the value read from `rtc_counter` is still the value of `rtc_counter`; and
after the store `rtc_timeout` is `rtc_counter + ticks`. -/
theorem act_critical_section (ticks : Int) (a : Action) (c c1 : Config)
    (hact : act ticks a c = some c1)
    (h1 : c.pc = Pc.at_read → c.irq_locked = true)
    (h2 : ∀ tmp, c.pc = Pc.at_store tmp → c.irq_locked = true ∧ tmp = c.st.rtc_counter)
    (h3 : c.pc = Pc.at_unlock → c.irq_locked = true ∧
      c.st.rtc_timeout = u32add c.st.rtc_counter (toU32 ticks)) :
    (c1.pc = Pc.at_read → c1.irq_locked = true) ∧
    (∀ tmp, c1.pc = Pc.at_store tmp → c1.irq_locked = true ∧ tmp = c1.st.rtc_counter) ∧
    (c1.pc = Pc.at_unlock → c1.irq_locked = true ∧
      c1.st.rtc_timeout = u32add c1.st.rtc_counter (toU32 ticks)) := by
  cases a with
  | thread =>
    simp only [act, Option.some.injEq] at hact
    subst hact
    unfold thread_step
    cases hpc : c.pc with
    | at_lock => simp [irq_lock]
    | at_read =>
      have := h1 hpc
      simp [this]
    | at_store tmp =>
      obtain ⟨hl, ht⟩ := h2 tmp hpc
      simp [hl, ht]
    | at_unlock => simp [irq_unlock]
    | done => simp [hpc]
  | irq status =>
    by_cases hl : c.irq_locked = true
    · simp [act, hl] at hact
    · simp only [act, hl, Bool.false_eq_true, if_false, Option.some.injEq] at hact
      subst hact
      refine ⟨fun h => absurd (h1 h) hl, fun tmp h => absurd (h2 tmp h).1 hl,
        fun h => absurd (h3 h).1 hl⟩

/-- The facts of the critical section hold after every interleaving that
starts before `irq_lock`. -/
theorem exec_critical_section (ticks : Int) (acts : List Action) (c c1 : Config)
    (hexec : exec ticks acts c = some c1)
    (h1 : c.pc = Pc.at_read → c.irq_locked = true)
    (h2 : ∀ tmp, c.pc = Pc.at_store tmp → c.irq_locked = true ∧ tmp = c.st.rtc_counter)
    (h3 : c.pc = Pc.at_unlock → c.irq_locked = true ∧
      c.st.rtc_timeout = u32add c.st.rtc_counter (toU32 ticks)) :
    (c1.pc = Pc.at_read → c1.irq_locked = true) ∧
    (∀ tmp, c1.pc = Pc.at_store tmp → c1.irq_locked = true ∧ tmp = c1.st.rtc_counter) ∧
    (c1.pc = Pc.at_unlock → c1.irq_locked = true ∧
      c1.st.rtc_timeout = u32add c1.st.rtc_counter (toU32 ticks)) := by
  induction acts generalizing c with
  | nil =>
    simp only [exec, Option.some.injEq] at hexec
    subst hexec
    exact ⟨h1, h2, h3⟩
  | cons a rest ih =>
    unfold exec at hexec
    cases hact : act ticks a c with
    | none => simp [hact] at hexec
    | some c2 =>
      simp only [hact] at hexec
      obtain ⟨g1, g2, g3⟩ := act_critical_section ticks a c c2 hact h1 h2 h3
      exact ih c2 hexec g1 g2 g3

end Periodic

namespace Periodic

/-- Without an interrupt in between, the four steps of the normal-context
call have the effect of `z_clock_set_timeout` for a positive argument. -/
theorem exec_thread_only (ticks : Int) (idle : Bool) (c0 : Config) (ht : 0 < ticks)
    (h0 : c0.pc = Pc.at_lock) :
    exec ticks [Action.thread, Action.thread, Action.thread, Action.thread] c0
      = some { c0 with st := z_clock_set_timeout ticks idle c0.st, key := c0.irq_locked,
                       pc := Pc.done } := by
  obtain ⟨st, l, k, pc⟩ := c0
  simp only at h0
  subst h0
  have h1 : ¬ (ticks < 0) := by omega
  have h2 : ¬ (ticks = 0) := by omega
  simp only [exec, act, thread_step, irq_lock, irq_unlock, z_clock_set_timeout, h1, h2,
    if_false]

/-- C17. The periodic `z_clock_set_timeout(ticks > 0)` is atomic with respect
to the tick interrupt.  In every interleaving of its steps with runs of
`rtc_isr`, the handler being unable to run while interrupts are masked: from
`irq_lock` to `irq_unlock` the handler cannot run; the value read from
`rtc_counter` is the value of `rtc_counter` at the store, so the store writes
`(rtc_counter + ticks) mod 2^32`; and when interrupts are released
`rtc_timeout` is `(rtc_counter + ticks) mod 2^32` for the current counter. -/
theorem periodic_set_timeout_atomic (ticks : Int) (acts : List Action) (c0 c : Config)
    (status : Nat) (ht : 0 < ticks) (h0 : c0.pc = Pc.at_lock)
    (hexec : exec ticks acts c0 = some c) :
    ((c.pc = Pc.at_read ∨ (∃ tmp, c.pc = Pc.at_store tmp) ∨ c.pc = Pc.at_unlock) →
      act ticks (Action.irq status) c = none) ∧
    (∀ tmp, c.pc = Pc.at_store tmp →
      tmp = c.st.rtc_counter ∧
      (thread_step ticks c).st.rtc_timeout
        = (c.st.rtc_counter + ticks.toNat) % 4294967296 ∧
      (thread_step ticks c).st.rtc_counter = c.st.rtc_counter) ∧
    (c.pc = Pc.at_unlock →
      c.st.rtc_timeout = (c.st.rtc_counter + ticks.toNat) % 4294967296 ∧
      (thread_step ticks c).st = c.st ∧
      (thread_step ticks c).pc = Pc.done) := by
  have hadd : ∀ x : Nat, u32add x (toU32 ticks) = (x + ticks.toNat) % 4294967296 := by
    intro x
    unfold u32add toU32
    omega
  obtain ⟨g1, g2, g3⟩ := exec_critical_section ticks acts c0 c hexec
    (fun h => by rw [h0] at h; cases h)
    (fun tmp h => by rw [h0] at h; cases h)
    (fun h => by rw [h0] at h; cases h)
  refine ⟨?_, ?_, ?_⟩
  · intro hpc
    have hl : c.irq_locked = true := by
      rcases hpc with h | ⟨tmp, h⟩ | h
      · exact g1 h
      · exact (g2 tmp h).1
      · exact (g3 h).1
    simp only [act, hl, if_true]
  · intro tmp hpc
    obtain ⟨_, htmp⟩ := g2 tmp hpc
    refine ⟨htmp, ?_, ?_⟩
    · simp only [thread_step, hpc]
      rw [htmp]
      exact hadd _
    · simp only [thread_step, hpc]
  · intro hpc
    obtain ⟨_, hT⟩ := g3 hpc
    refine ⟨by rw [hT]; exact hadd _, ?_, ?_⟩
    · simp only [thread_step, irq_unlock, hpc]
    · simp only [thread_step, irq_unlock, hpc]

/-- An interleaving with `ticks = 3` from counter `0`: a tick interrupt, then
`irq_lock`, the read and the store.  The stored target is `1 + 3 = 4`, and the
handler cannot run before `irq_unlock`. -/
theorem periodic_set_timeout_atomic_witness :
    exec 3 [Action.irq 128, Action.thread, Action.thread, Action.thread]
        ⟨⟨0, 0, 0, 10, false, []⟩, false, false, Pc.at_lock⟩
      = some ⟨⟨0, 1, 4, 10, false, []⟩, true, false, Pc.at_unlock⟩ ∧
    act 3 (Action.irq 128) ⟨⟨0, 1, 4, 10, false, []⟩, true, false, Pc.at_unlock⟩ = none ∧
    (4 : Nat) = (1 + (3 : Int).toNat) % 4294967296 := by
  have hexec : exec 3 [Action.irq 128, Action.thread, Action.thread, Action.thread]
        ⟨⟨0, 0, 0, 10, false, []⟩, false, false, Pc.at_lock⟩
      = some ⟨⟨0, 1, 4, 10, false, []⟩, true, false, Pc.at_unlock⟩ := by decide
  have h := periodic_set_timeout_atomic 3
    [Action.irq 128, Action.thread, Action.thread, Action.thread]
    ⟨⟨0, 0, 0, 10, false, []⟩, false, false, Pc.at_lock⟩
    ⟨⟨0, 1, 4, 10, false, []⟩, true, false, Pc.at_unlock⟩ 128 (by decide) rfl hexec
  exact ⟨hexec, h.1 (Or.inr (Or.inr rfl)), (h.2.2 rfl).1⟩

end Periodic

namespace Tickless

/-- C18. The tickless rounding: for `CYCLES_PER_TICK` in `1 .. 2^31 - 1` and
`ticks` in `0 .. MAX_TICKS`, with `p` the distance of the counter from the
mark modulo `CPT`, the rounded distance `R` is `ticks * CPT` when `p = 0` and
`(ticks + 1) * CPT` otherwise; it is the least multiple of `CPT` that is at
least `ticks * CPT + p`, so it is never smaller than the requested distance
and exceeds it by less than `CPT`. -/
theorem tickless_rounding (CPT count : Nat) (ticks : Int) (s : State)
    (hc1 : 1 ≤ CPT) (hc2 : CPT ≤ 2147483647)
    (ht0 : 0 ≤ ticks) (ht1 : ticks ≤ (MAX_TICKS CPT : Int)) :
    rounded_timeout CPT count ticks s
      = (if u32sub count s.rtc_last % CPT = 0 then ticks.toNat * CPT
         else (ticks.toNat + 1) * CPT) ∧
    CPT ∣ rounded_timeout CPT count ticks s ∧
    ticks.toNat * CPT + u32sub count s.rtc_last % CPT ≤ rounded_timeout CPT count ticks s ∧
    rounded_timeout CPT count ticks s
      < ticks.toNat * CPT + u32sub count s.rtc_last % CPT + CPT ∧
    (∀ m, ticks.toNat * CPT + u32sub count s.rtc_last % CPT ≤ m * CPT →
      rounded_timeout CPT count ticks s ≤ m * CPT) := by
  lift ticks to ℕ using ht0 with n
  have hn : n ≤ MAX_TICKS CPT := by exact_mod_cast ht1
  have hR := rounded_timeout_in_range CPT n count s hc1 (by omega) hn
  have hp : u32sub count s.rtc_last % CPT < CPT := Nat.mod_lt _ (by omega)
  have hsucc : (n + 1) * CPT = n * CPT + CPT := by ring
  rw [Int.toNat_natCast, hR]
  by_cases h0 : u32sub count s.rtc_last % CPT = 0
  · rw [if_pos h0, h0]
    refine ⟨rfl, Dvd.intro_left n rfl, by omega, by omega, fun m hm => by omega⟩
  · rw [if_neg h0]
    refine ⟨rfl, Dvd.intro_left (n + 1) rfl, by omega, by omega, ?_⟩
    intro m hm
    have hlt : n * CPT < m * CPT := by omega
    have hnm : n < m := Nat.lt_of_mul_lt_mul_right hlt
    exact Nat.mul_le_mul_right CPT hnm

/-- Rounding at `CYCLES_PER_TICK = 10` with the mark at `0`: five ticks at
counter `3` round `53` up to `60`. -/
theorem tickless_rounding_witness :
    rounded_timeout 10 3 5 ⟨0, 0, false, []⟩ = 60 ∧
    (5 : Int).toNat * 10 + u32sub 3 0 % 10 ≤ rounded_timeout 10 3 5 ⟨0, 0, false, []⟩ ∧
    rounded_timeout 10 3 5 ⟨0, 0, false, []⟩ < (5 : Int).toNat * 10 + u32sub 3 0 % 10 + 10 := by
  have h := tickless_rounding 10 3 5 ⟨0, 0, false, []⟩ (by decide) (by decide) (by decide)
    (by decide)
  exact ⟨by decide, h.2.2.1, h.2.2.2.1⟩

end Tickless

namespace Periodic

/-- C19. The periodic handler on a genuine tick (status flags not empty):
`rtc_counter` becomes `(c + 1) mod 2^32` and `rtc_timeout` is unchanged; when
the new counter equals `rtc_timeout` exactly one `z_clock_announce` call is
made, with `(c + 1 - m) mod 2^32`, and `rtc_last` becomes the new counter;
otherwise no call is made and `rtc_last` is unchanged. -/
theorem periodic_isr_genuine_tick (status : Nat) (s : State) (hst : status ≠ 0) :
    (rtc_isr status s).rtc_counter = (s.rtc_counter + 1) % 4294967296 ∧
    (rtc_isr status s).rtc_timeout = s.rtc_timeout ∧
    ((s.rtc_counter + 1) % 4294967296 = s.rtc_timeout →
      (rtc_isr status s).announced
        = s.announced ++ [toU32 ((s.rtc_counter : Int) + 1 - (s.rtc_last : Int))] ∧
      (rtc_isr status s).rtc_last = (s.rtc_counter + 1) % 4294967296) ∧
    ((s.rtc_counter + 1) % 4294967296 ≠ s.rtc_timeout →
      (rtc_isr status s).announced = s.announced ∧
      (rtc_isr status s).rtc_last = s.rtc_last) := by
  have hsub : u32sub ((s.rtc_counter + 1) % 4294967296) s.rtc_last
      = toU32 ((s.rtc_counter : Int) + 1 - (s.rtc_last : Int)) := by
    unfold u32sub toU32
    omega
  by_cases hT : (s.rtc_counter + 1) % 4294967296 = s.rtc_timeout
  · rw [rtc_isr_tick_match status s hst hT]
    refine ⟨rfl, rfl, fun _ => ⟨?_, rfl⟩, fun h => absurd hT h⟩
    show s.announced ++ [u32sub ((s.rtc_counter + 1) % 4294967296) s.rtc_last] = _
    rw [hsub]
  · rw [rtc_isr_tick_no_match status s hst hT]
    exact ⟨rfl, rfl, fun h => absurd h hT, fun _ => ⟨rfl, rfl⟩⟩

/-- A tick that wraps the counter onto the target `0` with the mark at
`4294967293` announces `3`; a tick that misses the target announces nothing. -/
theorem periodic_isr_genuine_tick_witness :
    (rtc_isr 128 ⟨4294967293, 4294967295, 0, 10, false, []⟩).announced
      = [] ++ [toU32 ((4294967295 : Nat) + 1 - (4294967293 : Nat))] ∧
    toU32 ((4294967295 : Nat) + 1 - (4294967293 : Nat)) = 3 ∧
    (rtc_isr 128 ⟨4294967293, 4294967295, 0, 10, false, []⟩).rtc_last = 0 ∧
    (rtc_isr 128 ⟨0, 1, 5, 10, false, []⟩).announced = [] := by
  have h1 := periodic_isr_genuine_tick 128 ⟨4294967293, 4294967295, 0, 10, false, []⟩
    (by decide)
  have h2 := periodic_isr_genuine_tick 128 ⟨0, 1, 5, 10, false, []⟩ (by decide)
  exact ⟨(h1.2.2.1 (by decide)).1, by decide, (h1.2.2.1 (by decide)).2,
    (h2.2.2.2 (by decide)).1⟩

end Periodic

namespace Periodic

/-- C20, as stated, fails: five ticks requested after initialisation, two tick
interrupts and then a negative request lead to a state with
`rtc_timeout = rtc_counter = 2` and the mark at `0`; one more genuine tick
announces nothing, and `z_clock_elapsed()` is then `3`, not `1`. -/
theorem periodic_one_shot_counterexample :
    run [.set_timeout 5 false, .isr 128, .isr 128, .set_timeout (-1) false]
        (z_clock_driver_init 10 ⟨0, 0, 0, 0, false, []⟩).2
      = ⟨0, 2, 2, 10, false, []⟩ ∧
    (run_isr [128] ⟨0, 2, 2, 10, false, []⟩).announced = [] ∧
    (z_clock_elapsed (run_isr [128] ⟨0, 2, 2, 10, false, []⟩)).1 = 3 ∧
    (z_clock_elapsed (run_isr [128] ⟨0, 2, 2, 10, false, []⟩)).1 ≠ 1 := by
  decide

/-- C20, amended. Periodic timeouts are one-shot: in every state with
`rtc_timeout = rtc_counter`, a run of `n` genuine tick interrupts with
`1 <= n <= 2^32 - 1` makes no `z_clock_announce` call and leaves `rtc_last`
unchanged, and `z_clock_elapsed()` has grown by `n`, to
`(rtc_counter - rtc_last + n) mod 2^32`, which is `n` when the mark stood at
the counter; a run of exactly `2^32` genuine tick interrupts makes exactly
one call, at its last interrupt, when the counter wraps back onto the
target. -/
theorem periodic_one_shot (s : State) (statuses : List Nat)
    (hT : s.rtc_timeout = s.rtc_counter) (hc : s.rtc_counter < 4294967296)
    (hst : ∀ st ∈ statuses, st ≠ 0) (hn1 : 1 ≤ statuses.length) :
    (statuses.length ≤ 4294967295 →
      (run_isr statuses s).announced = s.announced ∧
      (run_isr statuses s).rtc_last = s.rtc_last ∧
      (z_clock_elapsed (run_isr statuses s)).1
        = toU32 ((s.rtc_counter : Int) - (s.rtc_last : Int) + (statuses.length : Int)) ∧
      (s.rtc_last = s.rtc_counter →
        (z_clock_elapsed (run_isr statuses s)).1 = statuses.length)) ∧
    (statuses.length = 4294967296 →
      (run_isr statuses.dropLast s).announced = s.announced ∧
      (run_isr statuses s).announced
        = s.announced ++ [u32sub s.rtc_counter s.rtc_last]) := by
  refine ⟨?_, ?_⟩
  · intro hn2
    have hrun : run_isr statuses s
        = { s with rtc_counter := (s.rtc_counter + statuses.length) % 4294967296 } := by
      apply run_isr_no_match statuses s hc hst
      intro k hk1 hk2
      rw [hT]
      omega
    rw [hrun]
    refine ⟨rfl, rfl, ?_, ?_⟩
    · show u32sub ((s.rtc_counter + statuses.length) % 4294967296) s.rtc_last = _
      unfold u32sub toU32
      omega
    · intro hm
      show u32sub ((s.rtc_counter + statuses.length) % 4294967296) s.rtc_last = _
      rw [hm]
      unfold u32sub
      omega
  · intro hn2
    refine ⟨?_, ?_⟩
    · have hinit : ∀ st ∈ statuses.dropLast, st ≠ 0 := fun st hmem =>
        hst st (List.dropLast_subset statuses hmem)
      rw [run_isr_no_match statuses.dropLast s hc hinit]
      intro k hk1 hk2
      rw [List.length_dropLast, hn2] at hk2
      rw [hT]
      omega
    · rw [run_isr_reach statuses s 4294967296 hc hst hn2 (by decide) (Nat.le_refl _)
        (by rw [hT]; omega), hT]

/-- The amended C20 in the state of the counterexample and right after
initialisation: three genuine ticks announce nothing; `z_clock_elapsed()`
becomes `2 + 3 = 5` with the mark two ticks behind the counter, and `3` with
the mark at the counter. -/
theorem periodic_one_shot_witness :
    (run_isr [128, 128, 128] ⟨0, 2, 2, 10, false, []⟩).announced = [] ∧
    (z_clock_elapsed (run_isr [128, 128, 128] ⟨0, 2, 2, 10, false, []⟩)).1
      = toU32 (((2 : Nat) : Int) - ((0 : Nat) : Int) + ((3 : Nat) : Int)) ∧
    toU32 (((2 : Nat) : Int) - ((0 : Nat) : Int) + ((3 : Nat) : Int)) = 5 ∧
    (z_clock_elapsed (run_isr [128, 128, 128] ⟨0, 0, 0, 10, false, []⟩)).1 = 3 := by
  have h1 := (periodic_one_shot ⟨0, 2, 2, 10, false, []⟩ [128, 128, 128] rfl (by decide)
    (by decide) (by decide)).1 (by decide)
  have h2 := (periodic_one_shot ⟨0, 0, 0, 10, false, []⟩ [128, 128, 128] rfl (by decide)
    (by decide) (by decide)).1 (by decide)
  exact ⟨h1.1, h1.2.2.1, by decide, h2.2.2.2 rfl⟩

end Periodic
